import Mathlib

/-!
Verification of the multi-agent RAG question-answering service.

The development shallowly embeds the Python sources:
- `app/services/combined_agent.py` (batched answer synthesis with one retry,
  numbered-answer parsing, single-question fallback synthesis),
- `app/services/two_synthesis_agent.py` (fallback single-question synthesis),
- `app/services/one_planning_agent.py` (query planning with identity fallback),
- `app/services/three_retrieval_service.py` (two-stage search and rerank),
- `app/api/endpoints/run.py` (orchestration: context gathering, batch path,
  per-question fallback path).

External collaborators (the Gemini completion service, the Pinecone index,
the cross-encoder scorer) are modelled as oracle parameters: a completion
call that may raise is an `Option String` (`none` = the call raised), a
retrieval call that may raise is an `Except`, and the pairwise relevance
scorer is a function into an ordered scalar type (`Int` stands in for the
float scores; only their ordering matters to the code).

Python strings are modelled as Lean `String`/`List Char`; `str.strip` is
whitespace trimming on both ends, `str.split` on a newline is `splitLines`,
and `str.isdigit`/`int` are modelled for decimal ASCII digits.  Python dicts
keyed by `int` are modelled extensionally as functions `Nat → Option String`
(assignment overwrites, so the last matching line wins), and Python sets of
strings as insertion-ordered duplicate-free lists, with properties stated
via membership.
-/

namespace RagSystem

/-! ## String primitives (models of the Python `str` operations used) -/

/-- Model of `str.split('\n')`: splits on every newline, keeping empty pieces,
so that `n` newlines yield `n + 1` lines. -/
def splitLines : List Char → List (List Char)
  | [] => [[]]
  | c :: rest =>
    let r := splitLines rest
    if c = '\n' then [] :: r
    else
      match r with
      | [] => [[c]]
      | l :: ls => (c :: l) :: ls

/-- Model of `str.strip()`: drop whitespace from both ends. -/
def trimChars (cs : List Char) : List Char :=
  ((cs.dropWhile Char.isWhitespace).reverse.dropWhile Char.isWhitespace).reverse

/-- Model of `int(num_str)` on a string of decimal digits. -/
def digitsToNat (ds : List Char) : Nat :=
  ds.foldl (fun n c => 10 * n + (c.toNat - '0'.toNat)) 0

/-! ## `CombinedAgent._parse_numbered_answers_map` (combined_agent.py 131-159) -/

/-- One iteration of the parsing loop of `_parse_numbered_answers_map`:
strip the raw line; skip it when empty or when its first character is not a
digit (`if not line: continue` / `if line[0].isdigit()`, i.e. the leading
digit run is empty); after the digit run expect a literal `'.'`
(`if j < len(line) and line[j] == '.'`), and record the stripped remainder
`line[j+1:].strip()` as the answer for the parsed number, provided the
remainder is non-empty (`if ans:`).  The `int(num_str)` conversion cannot
fail on a non-empty digit run, so the `except ValueError` branch is dead. -/
def parseLine (raw : List Char) : Option (Nat × String) :=
  let line := trimChars raw
  let ds := line.takeWhile Char.isDigit
  let rest := line.dropWhile Char.isDigit
  if ds.isEmpty then none
  else if rest.head? = some '.' then
    let ans := trimChars rest.tail
    if ans.isEmpty then none else some (digitsToNat ds, String.mk ans)
  else none

/-- The dictionary built by the parsing loop, extensionally.  Python dict
assignment overwrites, so the value at a key is the one from the last line
that parsed to that key; hence lines later in the list take priority. -/
def linesMap : List (List Char) → Nat → Option String
  | [] => fun _ => none
  | raw :: rest => fun k =>
    match linesMap rest k with
    | some a => some a
    | none =>
      match parseLine raw with
      | some (j, a) => if j = k then some a else none
      | none => none

/-- Embedding of `CombinedAgent._parse_numbered_answers_map(response_text)` as a map from
answer number to recovered answer. -/
def parse_numbered_answers_map (response_text : String) : Nat → Option String :=
  linesMap (splitLines response_text.data)

/-! ### The spec's description of the line shape (for comparison with the code)

The following two definitions are NOT translated from the source; they
follow the specification's words: "a line counts as an answer for index k
only if it begins with decimal digits immediately followed by a literal
period, interpreted as k, with the remainder (trimmed) as the answer". -/

/-- Spec-worded predicate: the line, after trimming, begins with decimal
digits whose value is exactly `k`, immediately followed by a literal period. -/
def claimLineShape (k : Nat) (raw : List Char) : Bool :=
  let line := trimChars raw
  let ds := line.takeWhile Char.isDigit
  (!ds.isEmpty) && (digitsToNat ds == k) &&
    ((line.dropWhile Char.isDigit).head? == some '.')

/-- Spec-worded answer extraction: the trimmed remainder of the (trimmed)
line after the period. -/
def claimLineAnswer (raw : List Char) : String :=
  String.mk (trimChars ((trimChars raw).dropWhile Char.isDigit).tail)

/-! ## `CombinedAgent.process_all_questions_with_retry` (combined_agent.py 28-129) -/

/-- The batch-path sentinel string used by `combined_agent.py`. -/
def notFoundSentinel : String := "Information not found in the policy document"

/-- Python truthiness of an optional answer (`if not ans` / `if ans`):
`None` and the empty string are falsy, every other string truthy. -/
def falsy : Option String → Bool
  | none => true
  | some s => s.data.isEmpty

/-- Finalization `ans if ans else "Information not found in the policy document"`. -/
def finalizeSlot : Option String → String
  | none => notFoundSentinel
  | some s => if s.data.isEmpty then notFoundSentinel else s

/-- The answer map produced by one completion attempt: if the call raised
(`r = none`), the map is empty (`answers_map = {}`); otherwise the stripped
response text is parsed (`response.text.strip()` then
`_parse_numbered_answers_map`). -/
def attemptMap (r : Option String) : Nat → Option String
  | k =>
    match r with
    | none => none
    | some t => parse_numbered_answers_map (String.mk (trimChars t.data)) k

/-- Embedding of `missing_indices = [i for i, ans in enumerate(results) if not ans]`,
where `results[i] = answers_map.get(i + 1)`. -/
def missingIndices (questions : List String) (r1 : Option String) : List Nat :=
  (List.range questions.length).filter (fun i => falsy (attemptMap r1 (i + 1)))

/-- The result of one batched run: the final answers, the total number of
completion calls issued, and (when a retry was issued) the numbered question
list `(original number, question)` that the retry prompt enumerates as
`"{i+1}. {questions[i]}"` lines. -/
structure BatchRun where
  answers : List String
  calls : Nat
  retryRequest : Option (List (Nat × String))
deriving Repr, DecidableEq

/-- Embedding of `CombinedAgent.process_all_questions_with_retry(questions, context_chunks,
max_retries)`.  The two completion calls are oracles `r1 r2 : Option String`
(`none` = the call raised; `context_chunks` enters only the prompt text, which
the oracle abstracts, so it does not influence the result).  The first call is always issued;
if every slot is answered or `max_retries <= 1`, the run finalizes after one
call; otherwise exactly one retry is issued for the missing indices only, of
which only truthy retry answers overwrite the (falsy) missing slots. -/
def process_all_questions_with_retry (questions : List String)
    (context_chunks : List String) (r1 r2 : Option String) (max_retries : Nat) : BatchRun :=
  let n := questions.length
  let m1 := attemptMap r1
  let results : List (Option String) := (List.range n).map (fun i => m1 (i + 1))
  let missing := missingIndices questions r1
  if missing.isEmpty || max_retries ≤ 1 then
    { answers := results.map finalizeSlot, calls := 1, retryRequest := none }
  else
    let retryPairs := missing.map (fun i => (i + 1, questions.getD i ""))
    match r2 with
    | none =>
      { answers := results.map finalizeSlot, calls := 2, retryRequest := some retryPairs }
    | some t2 =>
      let m2 := attemptMap (some t2)
      let results2 := (List.range n).map (fun i =>
        if missing.contains i && !falsy (m2 (i + 1)) then m2 (i + 1) else m1 (i + 1))
      { answers := results2.map finalizeSlot, calls := 2, retryRequest := some retryPairs }

/-- Whether the run issued the retry call: some slot was missing after the
first attempt and `max_retries > 1`. -/
def retryHappened (questions : List String) (r1 : Option String) (max_retries : Nat) : Bool :=
  !(missingIndices questions r1).isEmpty && !(max_retries ≤ 1 : Bool)

/-- The value the batched run leaves in slot `i` (answer number `k = i + 1`):
the first attempt's answer when truthy; otherwise, when a retry was issued,
the finalized retry answer; otherwise the sentinel. -/
def batchSlotValue (r1 r2 : Option String) (retried : Bool) (k : Nat) : String :=
  if falsy (attemptMap r1 k) then
    if retried then finalizeSlot (attemptMap r2 k) else notFoundSentinel
  else finalizeSlot (attemptMap r1 k)


/-! ## `SynthesisAgent.synthesize_final_answer` (two_synthesis_agent.py 19-64) -/

/-- The error placeholder returned by the fallback synthesizer when its
completion call raises. -/
def synthesisErrorPlaceholder : String := "[An error occurred while generating the final answer.]"

/-- Embedding of `SynthesisAgent.synthesize_final_answer(original_question, context_chunks)`:
returns `response.text` unchanged on success, and the bracketed error
placeholder when the completion call raises. -/
def synthesize_final_answer (original_question : String) (context_chunks : List String)
    (resp : Option String) : String :=
  match resp with
  | some t => t
  | none => synthesisErrorPlaceholder

/-- Embedding of `CombinedAgent.process_single_question_with_context(question, context_chunks)`
(combined_agent.py 161-197): returns `response.text.strip()` on success, and
the literal string `"Information not found in the policy document"` — the
not-found sentinel itself — when the completion call raises. -/
def process_single_question_with_context (question : String) (context_chunks : List String)
    (resp : Option String) : String :=
  match resp with
  | some t => String.mk (trimChars t.data)
  | none => "Information not found in the policy document"

/-! ## `PlanningAgent.plan_and_research` (one_planning_agent.py 26-65) -/

/-- A Python value decoded by `json.loads`. -/
inductive PyJson where
  | obj : List (String × PyJson) → PyJson
  | arr : List PyJson → PyJson
  | str : String → PyJson
  | num : Int → PyJson
  | boolVal : Bool → PyJson
  | null : PyJson

/-- The identity fallback plan `{question: [question]}`. -/
def identityFallback (question : String) : List (String × PyJson) :=
  [(question, PyJson.arr [PyJson.str question])]

/-- Embedding of `PlanningAgent.plan_and_research(question)`.  The completion call plus
`json.loads` are one oracle: `none` when either raises (caught by the
`except`), `some v` when a value was decoded.  A decoded value that is not a
dict, or is an empty dict (`not isinstance(response_data, dict) or not
response_data`), falls back to `{question: [question]}`; otherwise the
decoded dict (as its entry list) is returned. -/
def plan_and_research (question : String) (outcome : Option PyJson) :
    List (String × PyJson) :=
  match outcome with
  | none => identityFallback question
  | some (PyJson.obj entries) =>
    if entries.isEmpty then identityFallback question else entries
  | some _ => identityFallback question

/-! ## `RetrievalService.search_and_rerank` (three_retrieval_service.py 111-140) -/

inductive RetrievalError where
  | notReady : RetrievalError
deriving Repr, DecidableEq

/-- Stable descending insertion by score: the new element goes before the
first element whose score is `≤` its own, hence after every earlier element
with a strictly greater score and before every equal-scored element that
occurred later in the original order. -/
def insertByScore (x : Int × String) : List (Int × String) → List (Int × String)
  | [] => [x]
  | y :: ys => if y.1 ≤ x.1 then x :: y :: ys else y :: insertByScore x ys

/-- Model of `scored_chunks.sort(key=lambda x: x[0], reverse=True)`: a stable
descending sort by score (Python list.sort is stable, also with
`reverse=True`; a stable sort is extensionally unique, so insertion sort is a
faithful model). -/
def sortByScoreDesc : List (Int × String) → List (Int × String)
  | [] => []
  | x :: xs => insertByScore x (sortByScoreDesc xs)

/-- Embedding of `RetrievalService.search_and_rerank(query, top_k_retrieval, top_n_rerank)`.
`indexAttached` models `self.index` being non-`None`; `matches` is the text
payload list returned by the Pinecone query for this query (its length is
bounded by `top_k_retrieval` on the service side); `score query chunk` models
`reranker_model.predict([[query, chunk], ...])`.  No index raises
(`RuntimeError`, the not-ready error); zero matches returns `[]`; otherwise
every (query, chunk) pair is scored, chunks are stably sorted by descending
score, and the first `top_n_rerank` chunk texts are returned. -/
def search_and_rerank (score : String → String → Int) (indexAttached : Bool)
    (query : String) (matchesList : List String) (top_n_rerank : Nat) :
    Except RetrievalError (List String) :=
  if !indexAttached then Except.error RetrievalError.notReady
  else if matchesList.isEmpty then Except.ok []
  else
    let retrieved_chunks := matchesList
    let scored_chunks := retrieved_chunks.map (fun chunk => (score query chunk, chunk))
    let reranked_chunks := ((sortByScoreDesc scored_chunks).take top_n_rerank).map Prod.snd
    Except.ok reranked_chunks

/-! ## Orchestration (run.py 54-141) -/

/-- The per-question generic error string of the fallback loop:
`f"An error occurred while processing the question: {question}"`. -/
def genericErrorMessage (q : String) : String :=
  "An error occurred while processing the question: " ++ q

/-- Python `set.update` membership step: add one string if not already present
(Python set modelled as an insertion-ordered duplicate-free list). -/
def insertUnique (pool : List String) (x : String) : List String :=
  if x ∈ pool then pool else pool ++ [x]

/-- Step `all_context_chunks.update(context)` for one retrieved chunk list. -/
def addAll (pool : List String) (xs : List String) : List String :=
  xs.foldl insertUnique pool

/-- Embedding of `get_comprehensive_context(questions)` (run.py 117-141): for each
question in order, call the retrieval service (`retrieve q`, an oracle that
may raise) inside a per-question `try`; on success union the chunks into the
accumulated set, on exception keep the pool unchanged and continue.  Always
returns the accumulated pool. -/
def get_comprehensive_context (retrieve : String → Except Unit (List String))
    (questions : List String) : List String :=
  questions.foldl
    (fun pool q =>
      match retrieve q with
      | Except.ok chunks => addAll pool chunks
      | Except.error _ => pool) []

/-- Embedding of `run_submission(request)` (run.py 54-115), after service initialization.
`indexAttached` models `retrieval_service.index is not None`; when no index
is attached the ingestion oracle `ingest` runs and its failure becomes an
HTTP 500 (`Except.error`).  Then the context pool is gathered, and the batch
step `batch questions ctx` (an oracle for the `try` block around
`process_all_questions_with_retry`; `Except.error` = it raised) either
returns the answers or triggers the per-question fallback loop, where each
question's pipeline run (`pipeline q`, an oracle for
`run_single_question_pipeline`) is tried and a raise is replaced by the
generic per-question error string. -/
def run_submission (indexAttached : Bool) (ingest : Except String Unit)
    (retrieve : String → Except Unit (List String))
    (batch : List String → List String → Except Unit (List String))
    (pipeline : String → Except Unit String)
    (questions : List String) : Except String (List String) :=
  match (if indexAttached then Except.ok () else ingest) with
  | Except.error e => Except.error e
  | Except.ok _ =>
    let ctx := get_comprehensive_context retrieve questions
    match batch questions ctx with
    | Except.ok answers => Except.ok answers
    | Except.error _ =>
      Except.ok (questions.map (fun q =>
        match pipeline q with
        | Except.ok a => a
        | Except.error _ => genericErrorMessage q))

/-! ## Theorems -/

theorem mk_nil_eq_empty : String.mk [] = "" := rfl

/-- The parser accepts a line for index `k` exactly when the line has the
spec's digits-then-period shape for `k` AND the trimmed remainder is
non-empty; the recovered answer is that trimmed remainder. -/
theorem parseLine_iff (raw : List Char) (k : Nat) (a : String) :
    parseLine raw = some (k, a) ↔
      claimLineShape k raw = true ∧ claimLineAnswer raw = a ∧ a ≠ "" := by
  unfold parseLine claimLineShape claimLineAnswer
  by_cases h1 : ((trimChars raw).takeWhile Char.isDigit).isEmpty
  · simp [h1]
  · by_cases h2 : ((trimChars raw).dropWhile Char.isDigit).head? = some '.'
    · by_cases h3 : (trimChars ((trimChars raw).dropWhile Char.isDigit).tail).isEmpty
      · rw [List.isEmpty_iff] at h3
        simp only [h1, h2, h3, List.isEmpty_nil, if_true, if_false, Bool.not_false,
          mk_nil_eq_empty]
        constructor
        · intro hcontra
          exact absurd hcontra (by simp)
        · rintro ⟨_, rfl, hne⟩
          exact absurd rfl hne
      · simp only [h1, h2, h3, Bool.false_eq_true, if_false, if_true, Option.some_inj,
          Prod.mk.injEq, Bool.not_false, Bool.true_and, Bool.and_true, beq_iff_eq,
          beq_self_eq_true, Bool.not_eq_true, List.isEmpty_eq_false]
        constructor
        · rintro ⟨rfl, rfl⟩
          refine ⟨rfl, rfl, ?_⟩
          intro hcontra
          rw [List.isEmpty_iff] at h3
          exact h3 (by simpa [String.ext_iff] using hcontra)
        · rintro ⟨rfl, rfl, _⟩
          exact ⟨rfl, rfl⟩
    · simp only [h1, if_false]
      have : (((trimChars raw).dropWhile Char.isDigit).head? == some '.') = false := by
        simpa using h2
      simp [h2, this]

theorem process_all_length (questions context_chunks : List String) (r1 r2 : Option String)
    (max_retries : Nat) :
    (process_all_questions_with_retry questions context_chunks r1 r2 max_retries).answers.length =
      questions.length := by
  unfold process_all_questions_with_retry
  by_cases hc : ((missingIndices questions r1).isEmpty || decide (max_retries ≤ 1)) = true
  · simp [hc]
  · rcases r2 with _ | t2 <;> simp [hc]

theorem mem_missingIndices (questions : List String) (r1 : Option String) (i : Nat) :
    i ∈ missingIndices questions r1 ↔
      i < questions.length ∧ falsy (attemptMap r1 (i + 1)) = true := by
  simp [missingIndices, List.mem_filter]

theorem falsy_not_mem_missingIndices (questions : List String) (r1 : Option String)
    (i : Nat) (hi : i < questions.length)
    (hm : (missingIndices questions r1).isEmpty = true) :
    falsy (attemptMap r1 (i + 1)) = false := by
  cases hfal : falsy (attemptMap r1 (i + 1))
  · rfl
  · exfalso
    have hmem : i ∈ missingIndices questions r1 :=
      (mem_missingIndices questions r1 i).mpr ⟨hi, hfal⟩
    rw [List.isEmpty_iff.mp hm] at hmem
    exact List.not_mem_nil i hmem

theorem contains_missingIndices (questions : List String) (r1 : Option String)
    (i : Nat) (hi : i < questions.length) :
    (missingIndices questions r1).contains i = falsy (attemptMap r1 (i + 1)) := by
  cases hfal : falsy (attemptMap r1 (i + 1))
  · simp only [List.contains_eq_any_beq, List.any_eq_false, beq_iff_eq]
    rintro x hx rfl
    have hx2 := ((mem_missingIndices questions r1 i).mp hx).2
    rw [hfal] at hx2
    exact Bool.false_ne_true hx2
  · simp only [List.contains_eq_any_beq, List.any_eq_true, beq_iff_eq]
    exact ⟨i, (mem_missingIndices questions r1 i).mpr ⟨hi, hfal⟩, rfl⟩

theorem finalizeSlot_none : finalizeSlot none = notFoundSentinel := rfl

theorem finalizeSlot_of_falsy (o : Option String) (h : falsy o = true) :
    finalizeSlot o = notFoundSentinel := by
  rcases o with _ | s
  · rfl
  · simp only [falsy] at h
    simp [finalizeSlot, h]

theorem process_all_slot (questions context_chunks : List String) (r1 r2 : Option String)
    (max_retries : Nat) (i : Nat) (hi : i < questions.length) :
    (process_all_questions_with_retry questions context_chunks r1 r2 max_retries).answers[i]? =
      some (batchSlotValue r1 r2 (retryHappened questions r1 max_retries) (i + 1)) := by
  unfold process_all_questions_with_retry batchSlotValue retryHappened
  by_cases hc : ((missingIndices questions r1).isEmpty || decide (max_retries ≤ 1)) = true
  · rw [if_pos hc]
    simp only [List.getElem?_map, List.getElem?_range hi, Option.map_some']
    have hc2 := hc
    rw [Bool.or_eq_true] at hc2
    rcases hc2 with hm | hr
    · have hnot := falsy_not_mem_missingIndices questions r1 i hi hm
      simp [hnot, hm]
    · rcases hfal : falsy (attemptMap r1 (i + 1)) with _ | _
      · simp [hfal, hr]
      · simp [hfal, hr, finalizeSlot_of_falsy _ hfal]
  · rw [if_neg hc]
    have hor : ¬((missingIndices questions r1).isEmpty = true ∨
        (decide (max_retries ≤ 1) : Bool) = true) := by
      rw [Bool.or_eq_true] at hc
      exact hc
    have hmiss : (missingIndices questions r1).isEmpty = false := by
      cases hh : (missingIndices questions r1).isEmpty
      · rfl
      · exact absurd (Or.inl hh) hor
    have hretr : (decide (max_retries ≤ 1) : Bool) = false := by
      cases hh : (decide (max_retries ≤ 1) : Bool)
      · rfl
      · exact absurd (Or.inr hh) hor
    rcases r2 with _ | t2
    · simp only [List.getElem?_map, List.getElem?_range hi, Option.map_some']
      rcases hfal : falsy (attemptMap r1 (i + 1)) with _ | _
      · simp [hfal, hmiss, hretr]
      · have hnone : attemptMap (none : Option String) (i + 1) = none := rfl
        simp [hfal, hmiss, hretr, hnone, finalizeSlot_of_falsy _ hfal, finalizeSlot_none]
    · simp only [List.getElem?_map, List.getElem?_range hi, Option.map_some']
      rcases hfal : falsy (attemptMap r1 (i + 1)) with _ | _
      · have hnm : ¬ i ∈ missingIndices questions r1 := by
          intro hmem
          have hmem2 := ((mem_missingIndices questions r1 i).mp hmem).2
          rw [hfal] at hmem2
          exact Bool.false_ne_true hmem2
        simp [hfal, hnm]
      · have hmem : i ∈ missingIndices questions r1 :=
          (mem_missingIndices questions r1 i).mpr ⟨hi, hfal⟩
        rcases hfal2 : falsy (attemptMap (some t2) (i + 1)) with _ | _
        · simp [hmem, hfal, hfal2, hmiss, hretr]
        · simp [hmem, hfal, hfal2, hmiss, hretr,
            finalizeSlot_of_falsy _ hfal, finalizeSlot_of_falsy _ hfal2]


theorem process_all_calls (questions context_chunks : List String) (r1 r2 : Option String)
    (max_retries : Nat) :
    (process_all_questions_with_retry questions context_chunks r1 r2 max_retries).calls =
      if retryHappened questions r1 max_retries then 2 else 1 := by
  unfold process_all_questions_with_retry retryHappened
  by_cases hc : ((missingIndices questions r1).isEmpty || decide (max_retries ≤ 1)) = true
  · rw [if_pos hc]
    have hc2 := hc
    rw [Bool.or_eq_true] at hc2
    rcases hc2 with hm | hr
    · simp [hm]
    · simp [hr]
  · rw [if_neg hc]
    have hc2 : ¬((missingIndices questions r1).isEmpty = true ∨
        (decide (max_retries ≤ 1) : Bool) = true) := by
      rw [Bool.or_eq_true] at hc
      exact hc
    have hmiss : (missingIndices questions r1).isEmpty = false := by
      cases hh : (missingIndices questions r1).isEmpty
      · rfl
      · exact absurd (Or.inl hh) hc2
    have hretr : (decide (max_retries ≤ 1) : Bool) = false := by
      cases hh : (decide (max_retries ≤ 1) : Bool)
      · rfl
      · exact absurd (Or.inr hh) hc2
    rcases r2 with _ | t2 <;> simp [hmiss, hretr]

theorem process_all_retryRequest (questions context_chunks : List String)
    (r1 r2 : Option String) (max_retries : Nat) :
    (process_all_questions_with_retry questions context_chunks r1 r2 max_retries).retryRequest =
      if retryHappened questions r1 max_retries then
        some ((missingIndices questions r1).map (fun i => (i + 1, questions.getD i "")))
      else none := by
  unfold process_all_questions_with_retry retryHappened
  by_cases hc : ((missingIndices questions r1).isEmpty || decide (max_retries ≤ 1)) = true
  · rw [if_pos hc]
    have hc2 := hc
    rw [Bool.or_eq_true] at hc2
    rcases hc2 with hm | hr
    · simp [hm]
    · simp [hr]
  · rw [if_neg hc]
    have hc2 : ¬((missingIndices questions r1).isEmpty = true ∨
        (decide (max_retries ≤ 1) : Bool) = true) := by
      rw [Bool.or_eq_true] at hc
      exact hc
    have hmiss : (missingIndices questions r1).isEmpty = false := by
      cases hh : (missingIndices questions r1).isEmpty
      · rfl
      · exact absurd (Or.inl hh) hc2
    have hretr : (decide (max_retries ≤ 1) : Bool) = false := by
      cases hh : (decide (max_retries ≤ 1) : Bool)
      · rfl
      · exact absurd (Or.inr hh) hc2
    rcases r2 with _ | t2 <;> simp [hmiss, hretr]

theorem insertByScore_perm (x : Int × String) (l : List (Int × String)) :
    List.Perm (insertByScore x l) (x :: l) := by
  induction l with
  | nil => exact List.Perm.refl _
  | cons y ys ih =>
    unfold insertByScore
    by_cases h : y.1 ≤ x.1
    · rw [if_pos h]
    · rw [if_neg h]
      exact (ih.cons y).trans (List.Perm.swap x y ys)

theorem sortByScoreDesc_perm (l : List (Int × String)) :
    List.Perm (sortByScoreDesc l) l := by
  induction l with
  | nil => exact List.Perm.refl _
  | cons x xs ih =>
    unfold sortByScoreDesc
    exact (insertByScore_perm x (sortByScoreDesc xs)).trans (ih.cons x)

theorem insertByScore_pairwise (x : Int × String) (l : List (Int × String))
    (h : l.Pairwise (fun a b => b.1 ≤ a.1)) :
    (insertByScore x l).Pairwise (fun a b => b.1 ≤ a.1) := by
  induction l with
  | nil => simp [insertByScore]
  | cons y ys ih =>
    rw [List.pairwise_cons] at h
    obtain ⟨hy, hys⟩ := h
    unfold insertByScore
    by_cases hxy : y.1 ≤ x.1
    · rw [if_pos hxy]
      refine List.Pairwise.cons ?_ (List.Pairwise.cons hy hys)
      intro b hb
      rcases List.mem_cons.mp hb with rfl | hb2
      · exact hxy
      · exact le_trans (hy b hb2) hxy
    · rw [if_neg hxy]
      refine List.Pairwise.cons ?_ (ih hys)
      intro b hb
      have hb2 := (insertByScore_perm x ys).mem_iff.mp hb
      rcases List.mem_cons.mp hb2 with rfl | hb3
      · exact le_of_lt (lt_of_not_le hxy)
      · exact hy b hb3

theorem sortByScoreDesc_pairwise (l : List (Int × String)) :
    (sortByScoreDesc l).Pairwise (fun a b => b.1 ≤ a.1) := by
  induction l with
  | nil => simp [sortByScoreDesc]
  | cons x xs ih =>
    unfold sortByScoreDesc
    exact insertByScore_pairwise x (sortByScoreDesc xs) ih

theorem insertByScore_filter (x : Int × String) (l : List (Int × String)) (s : Int) :
    (insertByScore x l).filter (fun p => p.1 == s) =
      if x.1 = s then x :: l.filter (fun p => p.1 == s)
      else l.filter (fun p => p.1 == s) := by
  induction l with
  | nil =>
    by_cases hx : x.1 = s <;> simp [insertByScore, List.filter_cons, hx]
  | cons y ys ih =>
    unfold insertByScore
    by_cases hxy : y.1 ≤ x.1
    · rw [if_pos hxy]
      by_cases hx : x.1 = s <;> simp [List.filter_cons, hx]
    · rw [if_neg hxy]
      by_cases hx : x.1 = s
      · have hy : y.1 ≠ s := by
          have := lt_of_not_le hxy
          omega
        simp [List.filter_cons, hy, ih, hx]
      · simp [List.filter_cons, ih, hx]

theorem sortByScoreDesc_filter (l : List (Int × String)) (s : Int) :
    (sortByScoreDesc l).filter (fun p => p.1 == s) = l.filter (fun p => p.1 == s) := by
  induction l with
  | nil => rfl
  | cons x xs ih =>
    unfold sortByScoreDesc
    rw [insertByScore_filter]
    by_cases hx : x.1 = s
    · simp [List.filter_cons, hx, ih]
    · simp [List.filter_cons, hx, ih]

theorem mem_insertUnique (pool : List String) (y x : String) :
    x ∈ insertUnique pool y ↔ x ∈ pool ∨ x = y := by
  unfold insertUnique
  by_cases h : y ∈ pool
  · rw [if_pos h]
    constructor
    · exact Or.inl
    · rintro (hx | rfl)
      · exact hx
      · exact h
  · rw [if_neg h]
    simp [List.mem_append]

theorem mem_addAll (pool xs : List String) (x : String) :
    x ∈ addAll pool xs ↔ x ∈ pool ∨ x ∈ xs := by
  induction xs generalizing pool with
  | nil => simp [addAll]
  | cons y ys ih =>
    unfold addAll at ih ⊢
    rw [List.foldl_cons, ih, mem_insertUnique]
    constructor
    · rintro ((hx | rfl) | hx)
      · exact Or.inl hx
      · exact Or.inr (List.mem_cons_self _ _)
      · exact Or.inr (List.mem_cons_of_mem _ hx)
    · rintro (hx | hx)
      · exact Or.inl (Or.inl hx)
      · rcases List.mem_cons.mp hx with rfl | hx2
        · exact Or.inl (Or.inr rfl)
        · exact Or.inr hx2

theorem mem_gather_aux (retrieve : String → Except Unit (List String))
    (questions : List String) (pool : List String) (x : String) :
    (x ∈ questions.foldl
        (fun pool q =>
          match retrieve q with
          | Except.ok chunks => addAll pool chunks
          | Except.error _ => pool) pool) ↔
      x ∈ pool ∨ ∃ q ∈ questions, ∃ l, retrieve q = Except.ok l ∧ x ∈ l := by
  induction questions generalizing pool with
  | nil => simp
  | cons q qs ih =>
    rw [List.foldl_cons, ih]
    rcases hq : retrieve q with e | chunks
    · constructor
      · rintro (hx | ⟨q2, hq2, l, hl, hxl⟩)
        · exact Or.inl hx
        · exact Or.inr ⟨q2, List.mem_cons_of_mem _ hq2, l, hl, hxl⟩
      · rintro (hx | ⟨q2, hq2, l, hl, hxl⟩)
        · exact Or.inl hx
        · rcases List.mem_cons.mp hq2 with rfl | hq3
          · rw [hq] at hl
            exact absurd hl (by simp)
          · exact Or.inr ⟨q2, hq3, l, hl, hxl⟩
    · rw [mem_addAll]
      constructor
      · rintro ((hx | hxc) | ⟨q2, hq2, l, hl, hxl⟩)
        · exact Or.inl hx
        · exact Or.inr ⟨q, List.mem_cons_self _ _, chunks, hq, hxc⟩
        · exact Or.inr ⟨q2, List.mem_cons_of_mem _ hq2, l, hl, hxl⟩
      · rintro (hx | ⟨q2, hq2, l, hl, hxl⟩)
        · exact Or.inl (Or.inl hx)
        · rcases List.mem_cons.mp hq2 with rfl | hq3
          · rw [hq] at hl
            have hll : chunks = l := by
              injection hl
            exact Or.inl (Or.inr (hll ▸ hxl))
          · exact Or.inr ⟨q2, hq3, l, hl, hxl⟩

theorem mem_get_comprehensive_context (retrieve : String → Except Unit (List String))
    (questions : List String) (x : String) :
    x ∈ get_comprehensive_context retrieve questions ↔
      ∃ q ∈ questions, ∃ l, retrieve q = Except.ok l ∧ x ∈ l := by
  unfold get_comprehensive_context
  rw [mem_gather_aux]
  simp


theorem linesMap_some (ls : List (List Char)) (k : Nat) (a : String)
    (h : linesMap ls k = some a) : ∃ raw ∈ ls, parseLine raw = some (k, a) := by
  induction ls with
  | nil => exact absurd h (by simp [linesMap])
  | cons raw rest ih =>
    unfold linesMap at h
    rcases hrest : linesMap rest k with _ | a2
    · rcases hline : parseLine raw with _ | ⟨j, a3⟩
      · simp only [hrest, hline] at h
        exact absurd h (by simp)
      · simp only [hrest, hline] at h
        by_cases hj : j = k
        · rw [if_pos hj] at h
          refine ⟨raw, List.mem_cons_self _ _, ?_⟩
          rw [hline]
          injection h with h2
          rw [hj, h2]
        · rw [if_neg hj] at h
          exact absurd h (by simp)
    · simp only [hrest, Option.some_inj] at h
      obtain ⟨raw2, hmem, hp⟩ := ih (h ▸ hrest)
      exact ⟨raw2, List.mem_cons_of_mem _ hmem, hp⟩

theorem linesMap_isSome (ls : List (List Char)) (k : Nat)
    (h : ∃ raw ∈ ls, ∃ a, parseLine raw = some (k, a)) :
    (linesMap ls k).isSome = true := by
  induction ls with
  | nil => simp at h
  | cons raw rest ih =>
    unfold linesMap
    rcases hrest : linesMap rest k with _ | a2
    · obtain ⟨raw2, hmem, a, hp⟩ := h
      rcases List.mem_cons.mp hmem with rfl | hmem2
      · simp only [hrest, hp]
        simp
      · have hsome := ih ⟨raw2, hmem2, a, hp⟩
        rw [hrest] at hsome
        exact absurd hsome (by simp)
    · simp [hrest]

/-- C2 (counterexample): the claim's "if and only if" fails on the line
`"1."`: the trimmed line begins with digits of value 1 immediately followed
by a literal period, yet the parser recovers no answer for index 1, because
the remainder after the period is empty and the code's `if ans:` guard drops
it. -/
theorem parse_recovers_iff_shape_refuted :
    ¬ ((∃ raw ∈ splitLines ("1." : String).data, claimLineShape 1 raw = true) ↔
      (parse_numbered_answers_map "1." 1).isSome = true) := by
  decide

/-- C2 (amended): the parser recovers an answer for index `k` iff some line,
after trimming, begins with decimal digits whose value is exactly `k`
immediately followed by a literal period AND the trimmed remainder after the
period is non-empty; every recovered answer is the trimmed remainder of such
a line, and lines without the digits-then-period shape are attributed to no
index. -/
theorem parse_recovers_iff_shape_and_nonempty (text : String) (k : Nat) :
    (∀ a, parse_numbered_answers_map text k = some a →
      ∃ raw ∈ splitLines text.data, claimLineShape k raw = true ∧
        claimLineAnswer raw = a ∧ a ≠ "") ∧
    ((∃ raw ∈ splitLines text.data, claimLineShape k raw = true ∧
        claimLineAnswer raw ≠ "") →
      ∃ a, parse_numbered_answers_map text k = some a) := by
  constructor
  · intro a h
    obtain ⟨raw, hmem, hp⟩ := linesMap_some (splitLines text.data) k a h
    exact ⟨raw, hmem, (parseLine_iff raw k a).mp hp⟩
  · rintro ⟨raw, hmem, hshape, hne⟩
    have hp : parseLine raw = some (k, claimLineAnswer raw) :=
      (parseLine_iff raw k (claimLineAnswer raw)).mpr ⟨hshape, rfl, hne⟩
    have hs := linesMap_isSome (splitLines text.data) k
      ⟨raw, hmem, claimLineAnswer raw, hp⟩
    rcases hm : linesMap (splitLines text.data) k with _ | a
    · rw [hm] at hs
      exact absurd hs (by simp)
    · exact ⟨a, hm⟩

/-- C2 (witness): on the response `"junk\n2. Paris"` the amended theorem
yields a recovered answer for index 2. -/
theorem parse_recovers_iff_instance :
    ∃ a, parse_numbered_answers_map "junk\n2. Paris" 2 = some a :=
  (parse_recovers_iff_shape_and_nonempty "junk\n2. Paris" 2).2
    ⟨("2. Paris" : String).data, by decide, by decide, by decide⟩


/-- C4: for every list of questions and every context, one batched run
issues at most `max_retries` completion calls in total (the parameter is the
total-tries cap, at least 1), regardless of how many indices the first
response leaves unanswered: the first call always happens, and at most one
retry follows, only when `max_retries > 1`. -/
theorem batch_calls_bounded_by_max_retries (questions context_chunks : List String)
    (r1 r2 : Option String) (max_retries : Nat) (h : 1 ≤ max_retries) :
    (process_all_questions_with_retry questions context_chunks r1 r2 max_retries).calls ≤
      max_retries := by
  rw [process_all_calls]
  by_cases hr : retryHappened questions r1 max_retries = true
  · rw [if_pos hr]
    unfold retryHappened at hr
    have h2 := (Bool.and_eq_true _ _).mp hr
    have h3 : (decide (max_retries ≤ 1) : Bool) = false := by
      cases hh : (decide (max_retries ≤ 1) : Bool)
      · rfl
      · rw [hh] at h2
        exact absurd h2.2 (by simp)
    have : ¬ max_retries ≤ 1 := of_decide_eq_false h3
    omega
  · rw [if_neg hr]
    exact h

/-- C4 (witness): a batch of one question with both completion calls raising
issues at most 2 calls under the default cap `max_retries = 2`. -/
theorem batch_calls_bounded_instance :
    1 ≤ 2 ∧
      (process_all_questions_with_retry ["q"] [] none none 2).calls ≤ 2 :=
  ⟨by decide, batch_calls_bounded_by_max_retries ["q"] [] none none 2 (by decide)⟩

/-- C3: with `max_retries = 2`, when the first completion call answers some
requested indices but leaves others missing, exactly one additional call is
issued (2 calls total); its request enumerates exactly the missing questions
under their original numbers `i + 1`; slots answered by the first call keep
their first-call answer; and every slot that was missing receives the
finalized retry answer — the retry's answer when truthy, the not-found
sentinel when the retry raised, did not answer it, or answered emptily. -/
theorem batch_retry_targets_missing_slots (questions context_chunks : List String)
    (t1 : String) (r2 : Option String)
    (hmiss : ∃ i, i < questions.length ∧ falsy (attemptMap (some t1) (i + 1)) = true)
    (hans : ∃ i, i < questions.length ∧ falsy (attemptMap (some t1) (i + 1)) = false) :
    (process_all_questions_with_retry questions context_chunks (some t1) r2 2).calls = 2 ∧
    (process_all_questions_with_retry questions context_chunks (some t1) r2 2).retryRequest =
      some ((missingIndices questions (some t1)).map (fun i => (i + 1, questions.getD i ""))) ∧
    (∀ p ∈ (missingIndices questions (some t1)).map (fun i => (i + 1, questions.getD i "")),
      1 ≤ p.1 ∧ p.1 ≤ questions.length ∧ falsy (attemptMap (some t1) p.1) = true ∧
        p.2 = questions.getD (p.1 - 1) "") ∧
    (∀ i, i < questions.length → ∀ a, attemptMap (some t1) (i + 1) = some a → a.data ≠ [] →
      (process_all_questions_with_retry questions context_chunks (some t1) r2 2).answers[i]? =
        some a) ∧
    (∀ i, i < questions.length → falsy (attemptMap (some t1) (i + 1)) = true →
      (process_all_questions_with_retry questions context_chunks (some t1) r2 2).answers[i]? =
        some (finalizeSlot (attemptMap r2 (i + 1)))) ∧
    (∀ i, i < questions.length → falsy (attemptMap (some t1) (i + 1)) = true →
      falsy (attemptMap r2 (i + 1)) = true →
      (process_all_questions_with_retry questions context_chunks (some t1) r2 2).answers[i]? =
        some notFoundSentinel) := by
  obtain ⟨im, him, hfm⟩ := hmiss
  have hretr : retryHappened questions (some t1) 2 = true := by
    unfold retryHappened
    have hne : (missingIndices questions (some t1)).isEmpty = false := by
      cases hh : (missingIndices questions (some t1)).isEmpty
      · rfl
      · have hmem : im ∈ missingIndices questions (some t1) :=
          (mem_missingIndices questions (some t1) im).mpr ⟨him, hfm⟩
        rw [List.isEmpty_iff.mp hh] at hmem
        exact absurd hmem (List.not_mem_nil im)
    simp [hne]
  refine ⟨?_, ?_, ?_, ?_, ?_, ?_⟩
  · rw [process_all_calls, if_pos hretr]
  · rw [process_all_retryRequest, if_pos hretr]
  · intro p hp
    obtain ⟨i, hi, rfl⟩ := List.mem_map.mp hp
    obtain ⟨hlt, hfal⟩ := (mem_missingIndices questions (some t1) i).mp hi
    exact ⟨by omega, by omega, by simpa using hfal, by simp⟩
  · intro i hi a ha hne
    rw [process_all_slot questions context_chunks (some t1) r2 2 i hi]
    have hfal : falsy (attemptMap (some t1) (i + 1)) = false := by
      rw [ha]
      unfold falsy
      simpa using hne
    unfold batchSlotValue
    rw [hfal, if_neg (by simp), ha]
    unfold finalizeSlot
    simp [hne]
  · intro i hi hfal
    rw [process_all_slot questions context_chunks (some t1) r2 2 i hi]
    unfold batchSlotValue
    rw [hfal, if_pos rfl, hretr, if_pos rfl]
  · intro i hi hfal hfal2
    rw [process_all_slot questions context_chunks (some t1) r2 2 i hi]
    unfold batchSlotValue
    rw [hfal, if_pos rfl, hretr, if_pos rfl, finalizeSlot_of_falsy _ hfal2]

/-- C3 (witness): a batch of three questions where the first response
answers numbers 1 and 3 but omits 2 and the retry raises: the missing slot
becomes the sentinel while the answered slots keep their answers. -/
theorem batch_retry_targets_missing_slots_instance :
    (∃ i, i < (["a", "b", "c"] : List String).length ∧
        falsy (attemptMap (some "1. x\n3. z") (i + 1)) = true) ∧
    (∃ i, i < (["a", "b", "c"] : List String).length ∧
        falsy (attemptMap (some "1. x\n3. z") (i + 1)) = false) ∧
    (process_all_questions_with_retry ["a", "b", "c"] [] (some "1. x\n3. z") none 2).calls
      = 2 :=
  ⟨⟨1, by decide⟩, ⟨0, by decide⟩,
    (batch_retry_targets_missing_slots ["a", "b", "c"] [] "1. x\n3. z" none
      ⟨1, by decide⟩ ⟨0, by decide⟩).1⟩


/-- C1: for every input list of N questions the orchestrator returns, when
it returns at all, a list of exactly N answer strings, slot `i` derived from
question `i`: on the batched path slot `i` is determined by the parse-map
entries for number `i + 1` (first answer if truthy, else the finalized retry
answer if a retry was issued, else the sentinel); on the per-question
fallback path slot `i` is the pipeline answer for question `i`, with an
unrecoverable per-question failure replaced in place by the generic error
string, never shortening or reordering the output. -/
theorem run_returns_aligned_answers (indexAttached : Bool) (ingest : Except String Unit)
    (retrieve : String → Except Unit (List String))
    (pipeline : String → Except Unit String)
    (questions : List String) (r1 r2 : Option String) :
    (∀ answers,
      run_submission indexAttached ingest retrieve
          (fun qs ctx => Except.ok
            (process_all_questions_with_retry qs ctx r1 r2 2).answers)
          pipeline questions = Except.ok answers →
        answers.length = questions.length ∧
        ∀ i, i < questions.length →
          answers[i]? =
            some (batchSlotValue r1 r2 (retryHappened questions r1 2) (i + 1))) ∧
    (∀ answers,
      run_submission indexAttached ingest retrieve (fun _ _ => Except.error ())
          pipeline questions = Except.ok answers →
        answers.length = questions.length ∧
        ∀ i, i < questions.length →
          answers[i]? = (questions[i]?).map (fun q =>
            match pipeline q with
            | Except.ok a => a
            | Except.error _ => genericErrorMessage q)) := by
  constructor
  · intro answers h
    unfold run_submission at h
    rcases hgate : (if indexAttached then Except.ok () else ingest) with e | u
    · rw [hgate] at h
      exact absurd h (by simp)
    · rw [hgate] at h
      simp only [Except.ok.injEq] at h
      subst h
      refine ⟨process_all_length _ _ r1 r2 2, ?_⟩
      intro i hi
      exact process_all_slot questions _ r1 r2 2 i hi
  · intro answers h
    unfold run_submission at h
    rcases hgate : (if indexAttached then Except.ok () else ingest) with e | u
    · rw [hgate] at h
      exact absurd h (by simp)
    · rw [hgate] at h
      simp only [Except.ok.injEq] at h
      subst h
      constructor
      · exact List.length_map _ _
      · intro i hi
        simp [List.getElem?_map]

/-- C1 (witness): two questions, batch path with a first response answering
only number 1 and a raised retry (length 2, slots aligned by number). -/
theorem run_returns_aligned_answers_instance :
    (process_all_questions_with_retry ["q1", "q2"]
        (get_comprehensive_context (fun _ => Except.error ()) ["q1", "q2"])
        (some "1. A") none 2).answers.length = (["q1", "q2"] : List String).length ∧
    ∀ i, i < (["q1", "q2"] : List String).length →
      (process_all_questions_with_retry ["q1", "q2"]
          (get_comprehensive_context (fun _ => Except.error ()) ["q1", "q2"])
          (some "1. A") none 2).answers[i]? =
        some (batchSlotValue (some "1. A") none
          (retryHappened ["q1", "q2"] (some "1. A") 2) (i + 1)) :=
  (run_returns_aligned_answers true (Except.ok ()) (fun _ => Except.error ())
      (fun _ => Except.error ()) ["q1", "q2"] (some "1. A") none).1 _ rfl


/-- C5 (counterexample): the claim fails for
`CombinedAgent.process_single_question_with_context` (a cited single-question
synthesis routine): when its completion call raises, it returns the
not-found sentinel itself, not a distinct error placeholder. -/
theorem single_question_failure_yields_sentinel :
    process_single_question_with_context "q" [] none = notFoundSentinel := rfl

/-- C5 (amended): the fallback pipeline's single-question synthesizer
(`SynthesisAgent.synthesize_final_answer`, the one `run_submission`'s
fallback actually calls) returns on failure the bracketed error placeholder,
which is distinct from the not-found sentinel; the unused
`CombinedAgent.process_single_question_with_context`, by contrast, returns
the sentinel itself on failure. -/
theorem fallback_synthesis_error_placeholder_distinct (q : String) (ctx : List String) :
    synthesize_final_answer q ctx none = synthesisErrorPlaceholder ∧
    synthesisErrorPlaceholder ≠ notFoundSentinel ∧
    process_single_question_with_context q ctx none = notFoundSentinel :=
  ⟨rfl, by decide, rfl⟩

/-- C5 (witness): the amended theorem at a concrete question and empty
context. -/
theorem fallback_synthesis_error_placeholder_instance :
    synthesize_final_answer "q" ["c"] none = synthesisErrorPlaceholder ∧
    synthesisErrorPlaceholder ≠ notFoundSentinel ∧
    process_single_question_with_context "q" ["c"] none = notFoundSentinel :=
  fallback_synthesis_error_placeholder_distinct "q" ["c"]

/-- C7: the planner never returns an empty mapping and never raises (it is
total): when the completion-and-decode oracle fails or yields anything that
is not a non-empty JSON object, the result is exactly the identity fallback
`{question: [question]}`; when it yields a non-empty object, the result is
exactly that object's entries. -/
theorem planning_never_empty_identity_fallback (question : String)
    (outcome : Option PyJson) :
    plan_and_research question outcome ≠ [] ∧
    (∀ entries, outcome = some (PyJson.obj entries) → entries ≠ [] →
      plan_and_research question outcome = entries) ∧
    ((∀ entries, outcome = some (PyJson.obj entries) → entries = []) →
      plan_and_research question outcome = identityFallback question) := by
  refine ⟨?_, ?_, ?_⟩
  · rcases outcome with _ | v
    · simp [plan_and_research, identityFallback]
    · rcases v with entries | _ | _ | _ | _ | _ <;>
        simp [plan_and_research, identityFallback]
      by_cases he : entries.isEmpty
      · simp [he]
      · simp [he, List.isEmpty_iff.not.mp he]
  · intro entries hout hne
    subst hout
    simp [plan_and_research, List.isEmpty_iff, hne]
  · intro hbad
    rcases outcome with _ | v
    · rfl
    · rcases v with entries | _ | _ | _ | _ | _
      · have : entries = [] := hbad entries rfl
        subst this
        simp [plan_and_research]
      all_goals rfl

/-- C7 (witness): a failed planner call returns the identity fallback for a
concrete question. -/
theorem planning_never_empty_instance :
    plan_and_research "Q" none = identityFallback "Q" :=
  (planning_never_empty_identity_fallback "Q" none).2.2 (fun entries h => nomatch h)


/-- C6: when retrieval returns at least one match and an index is attached,
search scores every (query, chunk) pair, sorts by descending score, and
returns exactly the first `top_n_rerank` chunk texts of that order; the
sorted list is a permutation of the scored list, is pairwise descending in
score, and preserves the original retrieval order among equal scores (the
stable-sort characterization: filtering the sorted list to any one score
yields the same sequence as filtering the input). -/
theorem search_reranks_sorted_stable_topn (score : String → String → Int)
    (query : String) (matchesList : List String) (top_n_rerank : Nat)
    (h : matchesList ≠ []) :
    search_and_rerank score true query matchesList top_n_rerank =
      Except.ok (((sortByScoreDesc
          (matchesList.map (fun chunk => (score query chunk, chunk)))).take
        top_n_rerank).map Prod.snd) ∧
    List.Perm (sortByScoreDesc (matchesList.map (fun chunk => (score query chunk, chunk))))
      (matchesList.map (fun chunk => (score query chunk, chunk))) ∧
    (sortByScoreDesc (matchesList.map (fun chunk => (score query chunk, chunk)))).Pairwise
      (fun a b => b.1 ≤ a.1) ∧
    ∀ s : Int,
      (sortByScoreDesc (matchesList.map (fun chunk => (score query chunk, chunk)))).filter
          (fun p => p.1 == s) =
        (matchesList.map (fun chunk => (score query chunk, chunk))).filter
          (fun p => p.1 == s) := by
  refine ⟨?_, sortByScoreDesc_perm _, sortByScoreDesc_pairwise _,
    fun s => sortByScoreDesc_filter _ s⟩
  unfold search_and_rerank
  rw [if_neg (by simp), if_neg (by simp [List.isEmpty_iff, h])]

/-- C6 (witness): two matches with distinct scores at `top_n_rerank = 1`. -/
theorem search_reranks_sorted_stable_instance :
    (["aa", "b"] : List String) ≠ [] ∧
    search_and_rerank (fun _ chunk => (chunk.data.length : Int)) true "q" ["aa", "b"] 1 =
      Except.ok (((sortByScoreDesc
          (["aa", "b"].map (fun chunk =>
            ((fun (_ : String) (chunk : String) => (chunk.data.length : Int)) "q" chunk,
              chunk)))).take 1).map Prod.snd) :=
  ⟨by decide,
    (search_reranks_sorted_stable_topn (fun _ chunk => (chunk.data.length : Int)) "q"
      ["aa", "b"] 1 (by decide)).1⟩

/-- C8: with no index attached, search fails with the not-ready error
regardless of the would-be matches; with an index attached and zero matches
it returns the empty list rather than an error; in every other case it
proceeds to reranking and returns the reranked top chunks. -/
theorem search_not_ready_and_empty_cases (score : String → String → Int)
    (query : String) (matchesList : List String) (top_n_rerank : Nat) :
    search_and_rerank score false query matchesList top_n_rerank =
      Except.error RetrievalError.notReady ∧
    (matchesList = [] →
      search_and_rerank score true query matchesList top_n_rerank = Except.ok []) ∧
    (matchesList ≠ [] →
      search_and_rerank score true query matchesList top_n_rerank =
        Except.ok (((sortByScoreDesc
            (matchesList.map (fun chunk => (score query chunk, chunk)))).take
          top_n_rerank).map Prod.snd)) := by
  refine ⟨rfl, ?_, ?_⟩
  · intro he
    subst he
    rfl
  · intro hne
    unfold search_and_rerank
    rw [if_neg (by simp), if_neg (by simp [List.isEmpty_iff, hne])]

/-- C8 (witness): the three cases at concrete inputs — no index, an index
with zero matches, and an index with one match. -/
theorem search_not_ready_and_empty_instance :
    search_and_rerank (fun _ _ => (0 : Int)) false "q" ["c"] 5 =
      Except.error RetrievalError.notReady ∧
    search_and_rerank (fun _ _ => (0 : Int)) true "q" [] 5 = Except.ok [] ∧
    search_and_rerank (fun _ _ => (0 : Int)) true "q" ["c"] 5 =
      Except.ok (((sortByScoreDesc
          (["c"].map (fun chunk => ((fun (_ _ : String) => (0 : Int)) "q" chunk,
            chunk)))).take 5).map Prod.snd) :=
  ⟨(search_not_ready_and_empty_cases (fun _ _ => (0 : Int)) "q" ["c"] 5).1,
    (search_not_ready_and_empty_cases (fun _ _ => (0 : Int)) "q" [] 5).2.1 rfl,
    (search_not_ready_and_empty_cases (fun _ _ => (0 : Int)) "q" ["c"] 5).2.2
      (by decide)⟩

/-- C10: during batch-path context gathering, a raise from any single
question's search call is contained inside the gathering step — a chunk is
in the pool iff some question's search succeeded with a chunk list
containing it, so a failing question contributes nothing while the other
questions' chunks are kept, and the step always returns a pool; moreover,
whatever the retrieval outcomes (including every search failing), when the
synthesis step itself returns, the orchestrator returns the batch result —
retrieval failure alone never routes the request to the per-question
fallback pipeline. -/
theorem gathering_isolates_retrieval_failures
    (retrieve : String → Except Unit (List String)) (questions : List String)
    (ingest : Except String Unit) (pipeline : String → Except Unit String)
    (f : List String → List String → List String) :
    (∀ x, x ∈ get_comprehensive_context retrieve questions ↔
      ∃ q ∈ questions, ∃ l, retrieve q = Except.ok l ∧ x ∈ l) ∧
    run_submission true ingest retrieve (fun a b => Except.ok (f a b)) pipeline
        questions =
      Except.ok (f questions (get_comprehensive_context retrieve questions)) :=
  ⟨fun x => mem_get_comprehensive_context retrieve questions x, rfl⟩

/-- C10 (witness): with one failing and one succeeding question, the failing
question's raise is contained and the batch result is returned. -/
theorem gathering_isolates_retrieval_failures_instance :
    ("c1" ∈ get_comprehensive_context
        (fun q => if q = "bad" then Except.error () else Except.ok ["c1"])
        ["bad", "good"] ↔
      ∃ q ∈ (["bad", "good"] : List String), ∃ l,
        (fun q => if q = "bad" then Except.error () else Except.ok ["c1"]) q =
          Except.ok l ∧ "c1" ∈ l) ∧
    run_submission true (Except.ok ())
        (fun q => if q = "bad" then Except.error () else Except.ok ["c1"])
        (fun a b => Except.ok b) (fun _ => Except.error ()) ["bad", "good"] =
      Except.ok (get_comprehensive_context
        (fun q => if q = "bad" then Except.error () else Except.ok ["c1"])
        ["bad", "good"]) :=
  ⟨(gathering_isolates_retrieval_failures
      (fun q => if q = "bad" then Except.error () else Except.ok ["c1"])
      ["bad", "good"] (Except.ok ()) (fun _ => Except.error ())
      (fun a b => b)).1 "c1",
    (gathering_isolates_retrieval_failures
      (fun q => if q = "bad" then Except.error () else Except.ok ["c1"])
      ["bad", "good"] (Except.ok ()) (fun _ => Except.error ())
      (fun a b => b)).2⟩

end RagSystem
